import Mathlib

/-!
Shallow embedding of the attribution + aggregation + reporting pipeline of
`src/NS3/dumbbell-topology.cpp` (functions `CalculateStats`,
`ProcessFlowMonitorResults`, `WriteResultsCsv`, and the experiment-schedule
loop in `main`).

Modelling decisions:
* C++ `double` timestamps and byte-derived samples are modelled as `ℚ`
  (the arithmetic involved is field arithmetic and comparisons only);
  the standard deviation, which requires a square root, lives in `ℝ`.
* `Ipv4Address` values are modelled as `ℕ`; the left-side node addresses
  of the three dumbbells are an abstract parameter `leftAddr : ℕ → ℕ → ℕ`
  (dumbbell index, node index), mirroring
  `dumbbells[d].GetLeftIpv4Address(i)`.
* The flow-monitor map iteration becomes a `List FlowRecord` fold;
  `vector<ExperimentData>` becomes `List ExperimentData` with `List.set` /
  `List.getD` for element update and read.
* The CSV `ofstream` output is modelled as the list of its lines (each
  `<< endl` terminates a line); numeric rendering of `<<` on `double` is an
  abstract formatter parameter (`fmtQ`, `fmtR`), since no property below
  depends on decimal rendering.
-/

namespace Dumbbell

/-- One flow-monitor record, as read in `ProcessFlowMonitorResults`:
the source address from the classifier five-tuple plus the `FlowStats`
fields actually consulted (`rxBytes`, `timeFirstTxPacket`,
`timeLastTxPacket`, `timeLastRxPacket`, in seconds). -/
structure FlowRecord where
  sourceAddress : ℕ
  rxBytes : ℕ
  timeFirstTxPacket : ℚ
  timeLastTxPacket : ℚ
  timeLastRxPacket : ℚ

/-- `struct ExperimentData` from the source: per-bucket sample sequences and
the statistics filled in by `CalculateStats`. -/
structure ExperimentData where
  throughputs : List ℚ
  flowTimes : List ℚ
  meanThroughput : ℚ
  stddevThroughput : ℝ
  meanFlowTime : ℚ
  stddevFlowTime : ℝ

/-- The default / freshly constructed `ExperimentData` (what
`vector<ExperimentData> experimentData(10)` value-initializes). -/
def emptyData : ExperimentData :=
  { throughputs := [], flowTimes := [], meanThroughput := 0,
    stddevThroughput := 0, meanFlowTime := 0, stddevFlowTime := 0 }

/-- The first loop of `CalculateStats`: `for (val : values) mean += val`. -/
def loopSum (values : List ℚ) : ℚ :=
  values.foldl (fun acc val => acc + val) 0

/-- The accumulated sum divided by the size: `mean /= values.size()`. -/
def loopMean (values : List ℚ) : ℚ :=
  loopSum values / values.length

/-- The second loop of `CalculateStats`:
`for (val : values) stddev += pow(val - mean, 2)`. -/
def loopSqDev (values : List ℚ) : ℚ :=
  values.foldl (fun acc val => acc + (val - loopMean values) ^ 2) 0

/-- `CalculateStats` from the source: early return `(0,0)` on an empty
vector, otherwise the two accumulation loops finished with
`stddev = sqrt(stddev / values.size())`. -/
noncomputable def CalculateStats (values : List ℚ) : ℚ × ℝ :=
  if values.isEmpty then (0, 0)
  else (loopMean values, Real.sqrt ((loopSqDev values / values.length : ℚ) : ℝ))

/-- Modelled from the spec: `stats(values) -> (mean, stddev)` with
`(0,0)` on the empty sequence, `mean = sum(values)/len(values)` and
`stddev = sqrt(sum((v-mean)^2)/len(values))` (population standard
deviation), the deviation sum read as real-number arithmetic. -/
noncomputable def specStats (values : List ℚ) : ℚ × ℝ :=
  if values = [] then (0, 0)
  else (values.sum / values.length,
    Real.sqrt ((values.map
        (fun v : ℚ => ((v : ℝ) - ((values.sum / values.length : ℚ) : ℝ)) ^ 2)).sum
      / (values.length : ℝ)))

/-- The throughput sample derived for a significant flow:
`(rxBytes * 8.0) / (timeLastRxPacket - timeFirstTxPacket) / 1e6`. -/
def tputMbps (r : FlowRecord) : ℚ :=
  (r.rxBytes * 8 : ℚ) / (r.timeLastRxPacket - r.timeFirstTxPacket) / 1000000

/-- The flow-completion-time sample:
`timeLastTxPacket - timeFirstTxPacket`. -/
def fctOf (r : FlowRecord) : ℚ :=
  r.timeLastTxPacket - r.timeFirstTxPacket

/-- Whether `startTime >= expStart && startTime < expEnd` holds for window
`i` of the schedule (reading outside the list yields the empty window
`(0,0)`, which contains nothing). -/
def inWindow (expTimings : List (ℚ × ℚ)) (i : ℕ) (t : ℚ) : Prop :=
  (expTimings.getD i (0, 0)).1 ≤ t ∧ t < (expTimings.getD i (0, 0)).2

instance (expTimings : List (ℚ × ℚ)) (i : ℕ) (t : ℚ) :
    Decidable (inWindow expTimings i t) :=
  inferInstanceAs (Decidable (_ ∧ _))

/-- The window-search loop of `ProcessFlowMonitorResults`: scan the
experiment indices in order and stop at the first window containing the
first-transmit time (`break` after a match). -/
def findWindow (expTimings : List (ℚ × ℚ)) (t : ℚ) : Option ℕ :=
  (List.range expTimings.length).find? (fun i => decide (inWindow expTimings i t))

/-- The slot-assignment branch chain of `ProcessFlowMonitorResults`, for a
flow with source address `src` that fell into window `expIdx`:
experiments 0 and 1 consult dumbbell 0, experiments 2 and 3 consult
dumbbell 1, experiment 4 consults dumbbell 2; `some 0` / `some 1` is the
stream slot whose bucket receives the samples, `none` means the record is
dropped. -/
def assignSlot (leftAddr : ℕ → ℕ → ℕ) (expIdx : ℕ) (src : ℕ) : Option ℕ :=
  if expIdx ≤ 1 then
    if expIdx = 0 ∨ src = leftAddr 0 0 then some 0
    else if expIdx = 1 ∧ src = leftAddr 0 1 then some 1
    else none
  else if expIdx ≤ 3 then
    if expIdx = 2 ∨ src = leftAddr 1 0 then some 0
    else if expIdx = 3 ∧ src = leftAddr 1 1 then some 1
    else none
  else if expIdx = 4 then
    if src = leftAddr 2 0 then some 0
    else if src = leftAddr 2 1 then some 1
    else none
  else none

/-- Full classification of one flow record: the byte filter
(`rxBytes > 1000000`), then the first-match window search, then the slot
branch chain; the result is the `(experimentIndex, streamSlot)` bucket key
or `none`. -/
def classifyFlow (leftAddr : ℕ → ℕ → ℕ) (expTimings : List (ℚ × ℚ))
    (r : FlowRecord) : Option (ℕ × ℕ) :=
  if r.rxBytes > 1000000 then
    match findWindow expTimings r.timeFirstTxPacket with
    | none => none
    | some expIdx =>
      match assignSlot leftAddr expIdx r.sourceAddress with
      | none => none
      | some slot => some (expIdx, slot)
  else none

/-- Push one throughput sample and one flow-completion-time sample into a
bucket (the two `push_back` calls of a matched branch). -/
def appendSample (d : ExperimentData) (tput fc : ℚ) : ExperimentData :=
  { d with throughputs := d.throughputs ++ [tput],
           flowTimes := d.flowTimes ++ [fc] }

/-- One iteration of the flow loop of `ProcessFlowMonitorResults`: classify
the record and, when a bucket key `(expIdx, slot)` results, append both
samples to bucket `expIdx * 2 + slot` of `expData`. -/
def processRecord (leftAddr : ℕ → ℕ → ℕ)
    (expTimings : List (ℚ × ℚ)) (expData : List ExperimentData)
    (r : FlowRecord) : List ExperimentData :=
  match classifyFlow leftAddr expTimings r with
  | none => expData
  | some (expIdx, slot) =>
    expData.set (expIdx * 2 + slot)
      (appendSample (expData.getD (expIdx * 2 + slot) emptyData)
        (tputMbps r) (fctOf r))

/-- The whole flow loop over the flow-monitor statistics map, as a fold in
iteration order. -/
def processRecords (leftAddr : ℕ → ℕ → ℕ)
    (expTimings : List (ℚ × ℚ)) (expData : List ExperimentData)
    (records : List FlowRecord) : List ExperimentData :=
  records.foldl (processRecord leftAddr expTimings) expData

/-- The statistics pass at the end of `ProcessFlowMonitorResults`:
`CalculateStats` over every bucket, storing mean and standard deviation of
both sample sequences in place. -/
noncomputable def reduceAll (expData : List ExperimentData) : List ExperimentData :=
  expData.map (fun d =>
    { d with meanThroughput := (CalculateStats d.throughputs).1,
             stddevThroughput := (CalculateStats d.throughputs).2,
             meanFlowTime := (CalculateStats d.flowTimes).1,
             stddevFlowTime := (CalculateStats d.flowTimes).2 })

/-- `ProcessFlowMonitorResults` end to end: classify and accumulate every
record, then reduce every bucket. -/
noncomputable def ProcessFlowMonitorResults (leftAddr : ℕ → ℕ → ℕ)
    (expTimings : List (ℚ × ℚ)) (records : List FlowRecord)
    (expData : List ExperimentData) : List ExperimentData :=
  reduceAll (processRecords leftAddr expTimings expData records)

/-- The experiment-schedule loop of `main`: `n` windows, each of length 30,
the next starting one time unit after the previous one ends. -/
def buildTimings : ℕ → ℚ → List (ℚ × ℚ)
  | 0, _ => []
  | n + 1, expStart => (expStart, expStart + 30) :: buildTimings n (expStart + 30 + 1)

/-- The concrete schedule of `main`: five windows starting at
`timeOffset = 1`. -/
def expTimingsMain : List (ℚ × ℚ) := buildTimings 5 1

/-- Which dumbbell the branch chain consults for a given experiment index
(experiments 0 and 1 use dumbbell 0, experiments 2 and 3 use dumbbell 1,
experiment 4 uses dumbbell 2). -/
def dumbbellOf (expIdx : ℕ) : ℕ :=
  if expIdx ≤ 1 then 0 else if expIdx ≤ 3 then 1 else 2

/-- The ordered expected-sender list of an experiment, from the
`SetupExperiment` calls in `main`: experiments 0 and 2 run a single sender
(left node 0 of their dumbbell), the others run two senders (left nodes 0
and 1). -/
def expectedSenders (leftAddr : ℕ → ℕ → ℕ) (expIdx : ℕ) : List ℕ :=
  if expIdx = 0 ∨ expIdx = 2 then [leftAddr (dumbbellOf expIdx) 0]
  else [leftAddr (dumbbellOf expIdx) 0, leftAddr (dumbbellOf expIdx) 1]

/-- The sample cells of one stream slot in a report row: the loop
`for (i < min(3, size)) csvFile << samples[i] << ","`, one cell per
emitted sample, each with its trailing comma. -/
def sampleCellsList (fmtQ : ℚ → String) (samples : List ℚ) : List String :=
  (samples.take 3).map (fun v => fmtQ v ++ ",")

/-- The concatenated sample cells of one stream slot. -/
def sampleCells (fmtQ : ℚ → String) (samples : List ℚ) : String :=
  String.join (sampleCellsList fmtQ samples)

/-- The header line written by `WriteResultsCsv`. -/
def csvHeader : String :=
  "exp,r1_s1,r2_s1,r3_s1,avg_s1,std_s1,unit_s1,r1_s2,r2_s2,r3_s2,avg_s2,std_s2,unit_s2"

/-- One throughput row of table 1, exactly as streamed by the source: the
label, slot-1 sample cells, slot-1 mean, stddev and `",Mbps,"` (note the
trailing comma), then — only for experiments other than 0 and 2 — the
slot-2 sample cells, mean, stddev and `",Mbps"`. The terminating `endl`
is the line boundary and is not part of the row string. -/
def throughputRow (fmtQ : ℚ → String) (fmtR : ℝ → String)
    (expData : List ExperimentData) (exp : ℕ) : String :=
  "th_" ++ toString (exp + 1) ++ "," ++
  sampleCells fmtQ (expData.getD (exp * 2) emptyData).throughputs ++
  fmtQ (expData.getD (exp * 2) emptyData).meanThroughput ++ "," ++
  fmtR (expData.getD (exp * 2) emptyData).stddevThroughput ++ ",Mbps," ++
  (if exp = 0 ∨ exp = 2 then ""
   else
     sampleCells fmtQ (expData.getD (exp * 2 + 1) emptyData).throughputs ++
     fmtQ (expData.getD (exp * 2 + 1) emptyData).meanThroughput ++ "," ++
     fmtR (expData.getD (exp * 2 + 1) emptyData).stddevThroughput ++ ",Mbps")

/-- One flow-completion-time row of table 2, exactly as streamed by the
source: the label, slot-1 sample cells, slot-1 mean, stddev and `",sec"`
(no trailing comma), then — only for experiments other than 0 and 2 — an
explicit `","` followed by the slot-2 sample cells, mean, stddev and
`",sec"`. -/
def afctRow (fmtQ : ℚ → String) (fmtR : ℝ → String)
    (expData : List ExperimentData) (exp : ℕ) : String :=
  "afct_" ++ toString (exp + 1) ++ "," ++
  sampleCells fmtQ (expData.getD (exp * 2) emptyData).flowTimes ++
  fmtQ (expData.getD (exp * 2) emptyData).meanFlowTime ++ "," ++
  fmtR (expData.getD (exp * 2) emptyData).stddevFlowTime ++ ",sec" ++
  (if exp = 0 ∨ exp = 2 then ""
   else
     "," ++
     sampleCells fmtQ (expData.getD (exp * 2 + 1) emptyData).flowTimes ++
     fmtQ (expData.getD (exp * 2 + 1) emptyData).meanFlowTime ++ "," ++
     fmtR (expData.getD (exp * 2 + 1) emptyData).stddevFlowTime ++ ",sec")

/-- The report as its list of lines: the header, the five throughput rows,
the five flow-completion-time rows (each `<< endl` of the source closes
one line). -/
def WriteResultsCsvLines (fmtQ : ℚ → String) (fmtR : ℝ → String)
    (expData : List ExperimentData) : List String :=
  csvHeader ::
    ((List.range 5).map (throughputRow fmtQ fmtR expData) ++
     (List.range 5).map (afctRow fmtQ fmtR expData))

/-- The report as the byte stream written to the file: every line followed
by a newline. -/
def WriteResultsCsv (fmtQ : ℚ → String) (fmtR : ℝ → String)
    (expData : List ExperimentData) : String :=
  String.join ((WriteResultsCsvLines fmtQ fmtR expData).map (fun line => line ++ "\n"))

/-- Modelled from the spec (amended for C1): a single-slot throughput row
is the label, the slot-1 sample cells, mean, stddev and the unit `Mbps`
followed by one trailing comma; no slot-2 column appears. -/
def amendedSingleThRow (fmtQ : ℚ → String) (fmtR : ℝ → String)
    (expNumber : ℕ) (d1 : ExperimentData) : String :=
  "th_" ++ toString expNumber ++ "," ++
  sampleCells fmtQ d1.throughputs ++
  fmtQ d1.meanThroughput ++ "," ++ fmtR d1.stddevThroughput ++ ",Mbps,"

/-- Modelled from the spec (C8, C10): a dual-slot throughput row continues
directly with the slot-2 columns (the comma-per-value style already ends
slot 1 with a comma) and ends right after the second `Mbps`. -/
def specDualThRow (fmtQ : ℚ → String) (fmtR : ℝ → String)
    (expNumber : ℕ) (d1 d2 : ExperimentData) : String :=
  amendedSingleThRow fmtQ fmtR expNumber d1 ++
  sampleCells fmtQ d2.throughputs ++
  fmtQ d2.meanThroughput ++ "," ++ fmtR d2.stddevThroughput ++ ",Mbps"

/-- Modelled from the spec (C8): a single-slot flow-completion-time row
ends right after the unit `sec`, with no extra comma. -/
def specSingleAfctRow (fmtQ : ℚ → String) (fmtR : ℝ → String)
    (expNumber : ℕ) (d1 : ExperimentData) : String :=
  "afct_" ++ toString expNumber ++ "," ++
  sampleCells fmtQ d1.flowTimes ++
  fmtQ d1.meanFlowTime ++ "," ++ fmtR d1.stddevFlowTime ++ ",sec"

/-- Modelled from the spec (C8): a dual-slot flow-completion-time row is
the single-slot row, then an explicit comma, then the slot-2 sample cells,
mean, stddev and the final `sec`. -/
def specDualAfctRow (fmtQ : ℚ → String) (fmtR : ℝ → String)
    (expNumber : ℕ) (d1 d2 : ExperimentData) : String :=
  specSingleAfctRow fmtQ fmtR expNumber d1 ++ "," ++
  sampleCells fmtQ d2.flowTimes ++
  fmtQ d2.meanFlowTime ++ "," ++ fmtR d2.stddevFlowTime ++ ",sec"

/-- A below-threshold record (`rxBytes = 900000`), used as concrete input. -/
def lowRecord : FlowRecord :=
  { sourceAddress := 7, rxBytes := 900000, timeFirstTxPacket := 12,
    timeLastTxPacket := 13, timeLastRxPacket := 14 }

/-- An above-threshold record with first transmit at `t = 12` and a source
address matching no dumbbell node, used as concrete input. -/
def oddRecord : FlowRecord :=
  { sourceAddress := 999, rxBytes := 2000000, timeFirstTxPacket := 12,
    timeLastTxPacket := 13, timeLastRxPacket := 14 }

/-- The store of the end-to-end example of the spec: bucket 0 holds three
80 Mb/s throughput samples with mean 80 and standard deviation 0. -/
def demoStore : List ExperimentData :=
  [{ throughputs := [80, 80, 80], flowTimes := [1, 1, 1],
     meanThroughput := 80, stddevThroughput := 0,
     meanFlowTime := 1, stddevFlowTime := 0 }]

/-- A demo rational formatter printing the numerator (all demo values are
integers). -/
def fmtQDemo (q : ℚ) : String := toString q.num

/-- A demo real formatter (the only real value rendered in the demo rows
is the standard deviation 0). -/
def fmtRDemo (_ : ℝ) : String := "0"

/-- A concrete address map for witnesses: dumbbell `d` has left nodes
`10(d+1)` and `10(d+1)+1`. -/
def addrW : ℕ → ℕ → ℕ := fun d i => 10 * (d + 1) + i

/-- A concrete two-window schedule for witnesses (the record at `t = 12`
falls in window 1). -/
def timingsW : List (ℚ × ℚ) := [(0, 5), (10, 40)]

/-- A record from the first expected sender of dumbbell 0. -/
def recA : FlowRecord :=
  { sourceAddress := 10, rxBytes := 2000000, timeFirstTxPacket := 12,
    timeLastTxPacket := 13, timeLastRxPacket := 14 }

/-- A record from the second expected sender of dumbbell 0. -/
def recB : FlowRecord :=
  { sourceAddress := 11, rxBytes := 2000000, timeFirstTxPacket := 12,
    timeLastTxPacket := 13, timeLastRxPacket := 14 }

/-- A record from an address matching neither expected sender. -/
def recC : FlowRecord :=
  { sourceAddress := 99, rxBytes := 2000000, timeFirstTxPacket := 12,
    timeLastTxPacket := 13, timeLastRxPacket := 14 }

/-- A `foldl` that adds `f` of each element is the sum of the mapped list,
shifted by the initial accumulator. -/
theorem foldl_add_f (f : ℚ → ℚ) :
    ∀ (l : List ℚ) (c : ℚ), l.foldl (fun acc v => acc + f v) c = c + (l.map f).sum := by
  intro l
  induction l with
  | nil => intro c; simp
  | cons a t ih =>
    intro c
    simp only [List.foldl_cons, List.map_cons, List.sum_cons, ih]
    ring

/-- Casting a sum of squared deviations of rationals to `ℝ` equals the sum
of the squared deviations of the casts. -/
theorem cast_dev_sum (m : ℚ) :
    ∀ l : List ℚ, (((l.map (fun v => (v - m) ^ 2)).sum : ℚ) : ℝ)
      = (l.map (fun v : ℚ => ((v : ℝ) - ((m : ℚ) : ℝ)) ^ 2)).sum := by
  intro l
  induction l with
  | nil => simp
  | cons a t ih =>
    simp only [List.map_cons, List.sum_cons, Rat.cast_add, ih]
    push_cast
    ring

/-- **C2.** `CalculateStats` computes exactly the statistics of the spec: `(0,0)`
on the empty list, otherwise mean `sum/len` and the population standard
deviation `sqrt(sum((v-mean)^2)/len)`; it is total (never fails and never
produces an undefined value). -/
theorem calculateStats_correct (values : List ℚ) :
    CalculateStats values = specStats values := by
  rcases eq_or_ne values [] with h | h
  · simp [CalculateStats, specStats, h]
  · have hne : ¬(values.isEmpty = true) := by simp [List.isEmpty_iff, h]
    have hsum : loopSum values = values.sum := by
      simpa [loopSum] using foldl_add_f (fun v => v) values 0
    have hmean : loopMean values = values.sum / values.length := by
      rw [loopMean, hsum]
    have hacc : loopSqDev values
        = (values.map (fun val => (val - values.sum / values.length) ^ 2)).sum := by
      rw [loopSqDev]
      simp only [hmean]
      simpa using foldl_add_f (fun val => (val - values.sum / values.length) ^ 2) values 0
    unfold CalculateStats specStats
    rw [if_neg hne, if_neg h, hmean]
    congr 1
    rw [hacc, Rat.cast_div, cast_dev_sum, Rat.cast_natCast]

/-- Reading back the bucket just written by `List.set` (in bounds). -/
theorem getD_set_self (l : List ExperimentData) (n : ℕ) (a : ExperimentData)
    (h : n < l.length) : (l.set n a).getD n emptyData = a := by
  rw [List.getD_eq_getD_get?, List.get?_eq_getElem?, List.getElem?_set_eq_of_lt a h]
  rfl

/-- Reading any other bucket after a `List.set`. -/
theorem getD_set_ne (l : List ExperimentData) (n k : ℕ) (a : ExperimentData)
    (h : n ≠ k) : (l.set n a).getD k emptyData = l.getD k emptyData := by
  rw [List.getD_eq_getD_get?, List.get?_eq_getElem?, List.getElem?_set_ne h,
    ← List.get?_eq_getElem?, ← List.getD_eq_getD_get?]

/-- **C3.** A record with `rxBytes <= 1000000` is discarded before any
window or address is consulted: classification returns `none` and the
store is left unchanged, whatever the timestamps and the sender address. -/
theorem lowVolume_discarded (leftAddr : ℕ → ℕ → ℕ) (expTimings : List (ℚ × ℚ))
    (expData : List ExperimentData) (r : FlowRecord)
    (hb : r.rxBytes ≤ 1000000) :
    classifyFlow leftAddr expTimings r = none ∧
    processRecord leftAddr expTimings expData r = expData := by
  have hcl : classifyFlow leftAddr expTimings r = none := by
    unfold classifyFlow
    rw [if_neg (by omega)]
  refine ⟨hcl, ?_⟩
  unfold processRecord
  rw [hcl]

/-- Witness for C3: the 900000-byte record of the spec is dropped and the
store stays untouched. -/
theorem lowVolume_discarded_witness :
    classifyFlow addrW timingsW lowRecord = none ∧
    processRecord addrW timingsW [emptyData] lowRecord = [emptyData] :=
  lowVolume_discarded addrW timingsW [emptyData] lowRecord (by decide)

/-- **C4.** A significant record whose first-transmit time falls (first) in
the window of an experiment with exactly one expected sender is assigned to
stream slot 0 of that experiment unconditionally: the conclusion holds for
every source address, so no address comparison takes place. -/
theorem singleSender_slot0 (leftAddr : ℕ → ℕ → ℕ) (expTimings : List (ℚ × ℚ))
    (r : FlowRecord) (expIdx : ℕ)
    (hb : r.rxBytes > 1000000)
    (hw : findWindow expTimings r.timeFirstTxPacket = some expIdx)
    (hs : (expectedSenders leftAddr expIdx).length = 1) :
    classifyFlow leftAddr expTimings r = some (expIdx, 0) := by
  have hidx : expIdx = 0 ∨ expIdx = 2 := by
    by_contra hcon
    rw [expectedSenders, if_neg hcon] at hs
    simp at hs
  unfold classifyFlow
  rw [if_pos hb, hw]
  rcases hidx with h | h <;> subst h <;> simp [assignSlot]

/-- Witness for C4: window `[10,40)`, first transmit at 12, 2000000 bytes,
source address 999 matching no node, still classified to slot 0 of
experiment 0. -/
theorem singleSender_slot0_witness :
    classifyFlow addrW [(10, 40)] oddRecord = some (0, 0) :=
  singleSender_slot0 addrW [(10, 40)] oddRecord 0 (by decide) (by decide)
    (by decide)

/-- **C5.** A significant record falling (first) in the window of an
experiment with two expected senders is matched by address: equal to the
first expected sender gives slot 0, else equal to the second gives slot 1,
else the record is discarded without error. -/
theorem twoSender_addr_match (leftAddr : ℕ → ℕ → ℕ) (expTimings : List (ℚ × ℚ))
    (r : FlowRecord) (expIdx : ℕ)
    (hb : r.rxBytes > 1000000)
    (hw : findWindow expTimings r.timeFirstTxPacket = some expIdx)
    (hs : (expectedSenders leftAddr expIdx).length = 2)
    (hlt : expIdx < 5) :
    classifyFlow leftAddr expTimings r =
      if r.sourceAddress = (expectedSenders leftAddr expIdx).getD 0 0 then
        some (expIdx, 0)
      else if r.sourceAddress = (expectedSenders leftAddr expIdx).getD 1 0 then
        some (expIdx, 1)
      else none := by
  have hidx : ¬(expIdx = 0 ∨ expIdx = 2) := by
    intro hcon
    rw [expectedSenders, if_pos hcon] at hs
    simp at hs
  have h134 : expIdx = 1 ∨ expIdx = 3 ∨ expIdx = 4 := by omega
  unfold classifyFlow
  rw [if_pos hb, hw]
  rcases h134 with h | h | h
  · subst h
    by_cases h1 : r.sourceAddress = leftAddr 0 0
    · simp [assignSlot, expectedSenders, dumbbellOf, h1]
    · by_cases h2 : r.sourceAddress = leftAddr 0 1
      · have hne : leftAddr 0 1 ≠ leftAddr 0 0 := fun he => h1 (h2.trans he)
        simp [assignSlot, expectedSenders, dumbbellOf, h1, h2, hne]
      · simp [assignSlot, expectedSenders, dumbbellOf, h1, h2]
  · subst h
    by_cases h1 : r.sourceAddress = leftAddr 1 0
    · simp [assignSlot, expectedSenders, dumbbellOf, h1]
    · by_cases h2 : r.sourceAddress = leftAddr 1 1
      · have hne : leftAddr 1 1 ≠ leftAddr 1 0 := fun he => h1 (h2.trans he)
        simp [assignSlot, expectedSenders, dumbbellOf, h1, h2, hne]
      · simp [assignSlot, expectedSenders, dumbbellOf, h1, h2]
  · subst h
    by_cases h1 : r.sourceAddress = leftAddr 2 0
    · simp [assignSlot, expectedSenders, dumbbellOf, h1]
    · by_cases h2 : r.sourceAddress = leftAddr 2 1
      · have hne : leftAddr 2 1 ≠ leftAddr 2 0 := fun he => h1 (h2.trans he)
        simp [assignSlot, expectedSenders, dumbbellOf, h1, h2, hne]
      · simp [assignSlot, expectedSenders, dumbbellOf, h1, h2]

/-- Witness for C5: in the two-sender window `[10,40)` of experiment 1,
the record from sender A goes to slot 0, from sender B to slot 1, and from
the unknown sender C nowhere. -/
theorem twoSender_addr_match_witness :
    classifyFlow addrW timingsW recA = some (1, 0) ∧
    classifyFlow addrW timingsW recB = some (1, 1) ∧
    classifyFlow addrW timingsW recC = none := by
  refine ⟨?_, ?_, ?_⟩
  · rw [twoSender_addr_match addrW timingsW recA 1 (by decide) (by decide)
      (by decide) (by decide)]
    decide
  · rw [twoSender_addr_match addrW timingsW recB 1 (by decide) (by decide)
      (by decide) (by decide)]
    decide
  · rw [twoSender_addr_match addrW timingsW recC 1 (by decide) (by decide)
      (by decide) (by decide)]
    decide

/-- **C7.** When a record is assigned to bucket `(expIdx, slot)`, the
throughput sample appended is `rxBytes * 8 / (lastRx - firstTx) / 1e6` and
the flow-completion-time sample appended is `lastTx - firstTx`. -/
theorem assigned_sample_values (leftAddr : ℕ → ℕ → ℕ)
    (expTimings : List (ℚ × ℚ)) (expData : List ExperimentData)
    (r : FlowRecord) (expIdx slot : ℕ)
    (hc : classifyFlow leftAddr expTimings r = some (expIdx, slot))
    (hlen : expIdx * 2 + slot < expData.length) :
    ((processRecord leftAddr expTimings expData r).getD (expIdx * 2 + slot)
        emptyData).throughputs
      = ((expData.getD (expIdx * 2 + slot) emptyData)).throughputs
        ++ [(r.rxBytes * 8 : ℚ) / (r.timeLastRxPacket - r.timeFirstTxPacket) / 1000000] ∧
    ((processRecord leftAddr expTimings expData r).getD (expIdx * 2 + slot)
        emptyData).flowTimes
      = ((expData.getD (expIdx * 2 + slot) emptyData)).flowTimes
        ++ [r.timeLastTxPacket - r.timeFirstTxPacket] := by
  have hres : processRecord leftAddr expTimings expData r
      = expData.set (expIdx * 2 + slot)
          (appendSample (expData.getD (expIdx * 2 + slot) emptyData)
            (tputMbps r) (fctOf r)) := by
    unfold processRecord
    rw [hc]
  rw [hres, getD_set_self _ _ _ hlen]
  exact ⟨by simp [appendSample, tputMbps], by simp [appendSample, fctOf]⟩

/-- Witness for C7: the record assigned to bucket `(0,0)` contributes the
two computed samples to that bucket. -/
theorem assigned_sample_values_witness :
    ((processRecord addrW [(10, 40)] [emptyData] oddRecord).getD 0
        emptyData).throughputs
      = (([emptyData] : List ExperimentData).getD 0 emptyData).throughputs
        ++ [(oddRecord.rxBytes * 8 : ℚ)
            / (oddRecord.timeLastRxPacket - oddRecord.timeFirstTxPacket) / 1000000] ∧
    ((processRecord addrW [(10, 40)] [emptyData] oddRecord).getD 0
        emptyData).flowTimes
      = (([emptyData] : List ExperimentData).getD 0 emptyData).flowTimes
        ++ [oddRecord.timeLastTxPacket - oddRecord.timeFirstTxPacket] :=
  assigned_sample_values addrW [(10, 40)] [emptyData] oddRecord 0 0
    (by decide) (by simp)

/-- Closed form of the schedule loop: window `i` (for `i < n`) of
`buildTimings n s` is `[s + 31 i, s + 31 i + 30)`. -/
theorem buildTimings_getD :
    ∀ (n : ℕ) (s : ℚ) (i : ℕ), i < n →
      (buildTimings n s).getD i (0, 0) = (s + 31 * i, s + 31 * i + 30) := by
  intro n
  induction n with
  | zero => intro s i h; exact absurd h (Nat.not_lt_zero i)
  | succ n ih =>
    intro s i h
    cases i with
    | zero => simp [buildTimings]
    | succ i =>
      have hrec := ih (s + 30 + 1) i (Nat.lt_of_succ_lt_succ h)
      simp only [buildTimings, List.getD_cons_succ, hrec, Prod.mk.injEq]
      constructor <;> (push_cast; ring)

/-- Two distinct schedule windows cannot both contain a time (ascending
case). -/
theorem window_overlap_lt_false (s : ℚ) (n i j : ℕ) (t : ℚ) (hj : j < n)
    (hij : i < j) (h1 : inWindow (buildTimings n s) i t)
    (h2 : inWindow (buildTimings n s) j t) : False := by
  have hi : i < n := hij.trans hj
  rw [inWindow, buildTimings_getD n s i hi] at h1
  rw [inWindow, buildTimings_getD n s j hj] at h2
  have hc : (i : ℚ) + 1 ≤ (j : ℚ) := by exact_mod_cast hij
  obtain ⟨h1a, h1b⟩ := h1
  obtain ⟨h2a, h2b⟩ := h2
  simp only at h1b h2a
  linarith

/-- Schedule windows are pairwise disjoint: a time inside windows `i` and
`j` forces `i = j`. -/
theorem windows_disjoint (s : ℚ) (n i j : ℕ) (t : ℚ) (hi : i < n) (hj : j < n)
    (h1 : inWindow (buildTimings n s) i t)
    (h2 : inWindow (buildTimings n s) j t) : i = j := by
  rcases lt_trichotomy i j with h | h | h
  · exact (window_overlap_lt_false s n i j t hj h h1 h2).elim
  · exact h
  · exact (window_overlap_lt_false s n j i t hi h h2 h1).elim

/-- On the five-window schedule, the first-match search returns exactly the
window containing the time (the match is unique, so stopping at the first
match loses nothing). -/
theorem findWindow_eq_of_inWindow (s : ℚ) (t : ℚ) (i : ℕ) (hi : i < 5)
    (h : inWindow (buildTimings 5 s) i t) :
    findWindow (buildTimings 5 s) t = some i := by
  have hnot : ∀ j, j < 5 → j ≠ i → ¬inWindow (buildTimings 5 s) j t := by
    intro j hj hne hin
    exact hne (windows_disjoint s 5 j i t hj hi hin h)
  have hr : List.range (buildTimings 5 s).length = [0, 1, 2, 3, 4] := rfl
  unfold findWindow
  rw [hr]
  interval_cases i
  · simp [List.find?_cons, decide_eq_true h]
  · simp [List.find?_cons, decide_eq_false (hnot 0 (by norm_num) (by norm_num)),
      decide_eq_true h]
  · simp [List.find?_cons, decide_eq_false (hnot 0 (by norm_num) (by norm_num)),
      decide_eq_false (hnot 1 (by norm_num) (by norm_num)), decide_eq_true h]
  · simp [List.find?_cons, decide_eq_false (hnot 0 (by norm_num) (by norm_num)),
      decide_eq_false (hnot 1 (by norm_num) (by norm_num)),
      decide_eq_false (hnot 2 (by norm_num) (by norm_num)), decide_eq_true h]
  · simp [List.find?_cons, decide_eq_false (hnot 0 (by norm_num) (by norm_num)),
      decide_eq_false (hnot 1 (by norm_num) (by norm_num)),
      decide_eq_false (hnot 2 (by norm_num) (by norm_num)),
      decide_eq_false (hnot 3 (by norm_num) (by norm_num)), decide_eq_true h]

/-- Processing one record changes at most one bucket of the store. -/
theorem processRecord_touches_one (leftAddr : ℕ → ℕ → ℕ)
    (expTimings : List (ℚ × ℚ)) (expData : List ExperimentData)
    (r : FlowRecord) :
    ∃ b, ∀ k, k ≠ b →
      (processRecord leftAddr expTimings expData r).getD k emptyData
        = expData.getD k emptyData := by
  cases hc : classifyFlow leftAddr expTimings r with
  | none =>
    refine ⟨0, fun k _ => ?_⟩
    unfold processRecord
    rw [hc]
  | some p =>
    obtain ⟨e, sl⟩ := p
    refine ⟨e * 2 + sl, fun k hk => ?_⟩
    have hres : processRecord leftAddr expTimings expData r
        = expData.set (e * 2 + sl)
            (appendSample (expData.getD (e * 2 + sl) emptyData)
              (tputMbps r) (fctOf r)) := by
      unfold processRecord
      rw [hc]
    rw [hres]
    exact getD_set_ne _ _ _ _ (fun hh => hk hh.symm)

/-- **C6.** Classification is unambiguous on the schedule built by `main`
(any base offset): the windows `start[0] = offset`,
`start[i] = end[i-1] + 1`, `end[i] = start[i] + 30` are pairwise disjoint;
the first-match window search finds exactly the containing window; and
processing a record touches at most one `(experiment, slot)` bucket. -/
theorem classification_unambiguous (offset : ℚ) :
    (∀ i j t, i < 5 → j < 5 → inWindow (buildTimings 5 offset) i t →
      inWindow (buildTimings 5 offset) j t → i = j) ∧
    (∀ t i, i < 5 → inWindow (buildTimings 5 offset) i t →
      findWindow (buildTimings 5 offset) t = some i) ∧
    (∀ (leftAddr : ℕ → ℕ → ℕ) (expData : List ExperimentData) (r : FlowRecord),
      ∃ b, ∀ k, k ≠ b →
        (processRecord leftAddr (buildTimings 5 offset) expData r).getD k emptyData
          = expData.getD k emptyData) :=
  ⟨fun i j t hi hj h1 h2 => windows_disjoint offset 5 i j t hi hj h1 h2,
   fun t i hi h => findWindow_eq_of_inWindow offset t i hi h,
   fun leftAddr expData r => processRecord_touches_one leftAddr _ expData r⟩

/-- Witness for C6: on the schedule with offset 1, time 35 is found in
window 1 and nowhere else, and processing a concrete record touches at
most one bucket of a concrete store. -/
theorem classification_unambiguous_witness :
    findWindow (buildTimings 5 1) 35 = some 1 ∧
    (∃ b, ∀ k, k ≠ b →
      (processRecord addrW (buildTimings 5 1) [emptyData] oddRecord).getD k emptyData
        = ([emptyData] : List ExperimentData).getD k emptyData) :=
  ⟨(classification_unambiguous 1).2.1 35 1 (by decide)
      (by rw [inWindow, buildTimings_getD 5 1 1 (by norm_num)]; norm_num),
   (classification_unambiguous 1).2.2 addrW [emptyData] oddRecord⟩

/-- Processing one record preserves equality of the two sample-sequence
lengths in every bucket (the two appends go to the same bucket). -/
theorem processRecord_lengths (leftAddr : ℕ → ℕ → ℕ)
    (expTimings : List (ℚ × ℚ)) (expData : List ExperimentData) (r : FlowRecord)
    (h : ∀ b, (expData.getD b emptyData).throughputs.length
        = (expData.getD b emptyData).flowTimes.length) :
    ∀ b, ((processRecord leftAddr expTimings expData r).getD b
          emptyData).throughputs.length
        = ((processRecord leftAddr expTimings expData r).getD b
          emptyData).flowTimes.length := by
  intro b
  cases hc : classifyFlow leftAddr expTimings r with
  | none =>
    unfold processRecord
    rw [hc]
    exact h b
  | some p =>
    obtain ⟨e, sl⟩ := p
    have hres : processRecord leftAddr expTimings expData r
        = expData.set (e * 2 + sl)
            (appendSample (expData.getD (e * 2 + sl) emptyData)
              (tputMbps r) (fctOf r)) := by
      unfold processRecord
      rw [hc]
    rw [hres]
    by_cases hb : e * 2 + sl = b
    · subst hb
      by_cases hlen : e * 2 + sl < expData.length
      · rw [getD_set_self _ _ _ hlen]
        have hb2 := h (e * 2 + sl)
        simp only [appendSample, List.length_append, List.length_cons,
          List.length_nil]
        omega
      · rw [List.set_eq_of_length_le (Nat.le_of_not_lt hlen)]
        exact h _
    · rw [getD_set_ne _ _ _ _ hb]
      exact h b

/-- The fold over all records preserves the per-bucket length equality. -/
theorem processRecords_lengths (leftAddr : ℕ → ℕ → ℕ)
    (expTimings : List (ℚ × ℚ)) :
    ∀ (records : List FlowRecord) (expData : List ExperimentData),
      (∀ b, (expData.getD b emptyData).throughputs.length
          = (expData.getD b emptyData).flowTimes.length) →
      ∀ b, ((processRecords leftAddr expTimings expData records).getD b
            emptyData).throughputs.length
          = ((processRecords leftAddr expTimings expData records).getD b
            emptyData).flowTimes.length := by
  intro records
  induction records with
  | nil =>
    intro expData h b
    simpa [processRecords] using h b
  | cons r rs ih =>
    intro expData h b
    have hstep := processRecord_lengths leftAddr expTimings expData r h
    simp only [processRecords, List.foldl_cons]
    simp only [processRecords] at ih
    exact ih (processRecord leftAddr expTimings expData r) hstep b

/-- The reduction pass rewrites only the statistics fields: both sample
sequences of every bucket are untouched. -/
theorem reduceAll_getD_lists :
    ∀ (l : List ExperimentData) (b : ℕ),
      ((reduceAll l).getD b emptyData).throughputs
          = (l.getD b emptyData).throughputs ∧
      ((reduceAll l).getD b emptyData).flowTimes
          = (l.getD b emptyData).flowTimes := by
  intro l
  induction l with
  | nil => intro b; exact ⟨rfl, rfl⟩
  | cons d t ih =>
    intro b
    cases b with
    | zero => exact ⟨rfl, rfl⟩
    | succ b => simpa [reduceAll] using ih b

/-- **C9.** After processing any collection of flow records (and reducing),
every bucket holds as many throughput samples as flow-completion-time
samples, provided the store started balanced (e.g. empty): each classified
record appends exactly one sample to both sequences of one bucket, and
discarded records append to neither. -/
theorem bucket_lengths_balanced (leftAddr : ℕ → ℕ → ℕ)
    (expTimings : List (ℚ × ℚ)) (records : List FlowRecord)
    (expData : List ExperimentData)
    (h : ∀ b, (expData.getD b emptyData).throughputs.length
        = (expData.getD b emptyData).flowTimes.length) :
    ∀ b, ((ProcessFlowMonitorResults leftAddr expTimings records expData).getD b
          emptyData).throughputs.length
        = ((ProcessFlowMonitorResults leftAddr expTimings records expData).getD b
          emptyData).flowTimes.length := by
  intro b
  unfold ProcessFlowMonitorResults
  rw [(reduceAll_getD_lists _ b).1, (reduceAll_getD_lists _ b).2]
  exact processRecords_lengths leftAddr expTimings records expData h b

/-- Witness for C9: a classified record and a discarded record processed
into the empty store leave every bucket balanced. -/
theorem bucket_lengths_balanced_witness :
    ((ProcessFlowMonitorResults addrW timingsW [recA, lowRecord] []).getD 2
        emptyData).throughputs.length
      = ((ProcessFlowMonitorResults addrW timingsW [recA, lowRecord] []).getD 2
        emptyData).flowTimes.length :=
  bucket_lengths_balanced addrW timingsW [recA, lowRecord] [] (fun _ => rfl) 2

/-- A string chain that extends `a` on the left still extends `a` after one
more append. -/
theorem append_extends (a x y : String) (h : ∃ s, x = a ++ s) :
    ∃ s, x ++ y = a ++ s := by
  obtain ⟨s, hs⟩ := h
  exact ⟨s ++ y, by rw [hs, String.append_assoc]⟩

/-- Every throughput row starts with its `th_<n>,` label. -/
theorem throughputRow_label (fmtQ : ℚ → String) (fmtR : ℝ → String)
    (expData : List ExperimentData) (e : ℕ) :
    ∃ s, throughputRow fmtQ fmtR expData e
      = "th_" ++ toString (e + 1) ++ "," ++ s := by
  unfold throughputRow
  iterate 6 apply append_extends
  exact ⟨"", (String.append_empty _).symm⟩

/-- Every flow-completion-time row starts with its `afct_<n>,` label. -/
theorem afctRow_label (fmtQ : ℚ → String) (fmtR : ℝ → String)
    (expData : List ExperimentData) (e : ℕ) :
    ∃ s, afctRow fmtQ fmtR expData e
      = "afct_" ++ toString (e + 1) ++ "," ++ s := by
  unfold afctRow
  iterate 6 apply append_extends
  exact ⟨"", (String.append_empty _).symm⟩

/-- The throughput row of a single-slot experiment (0 or 2) is exactly the
slot-1 columns ending in `",Mbps,"`, with no slot-2 column. -/
theorem thRow_single (fmtQ : ℚ → String) (fmtR : ℝ → String)
    (expData : List ExperimentData) (e : ℕ) (he : e = 0 ∨ e = 2) :
    throughputRow fmtQ fmtR expData e
      = amendedSingleThRow fmtQ fmtR (e + 1) (expData.getD (e * 2) emptyData) := by
  unfold throughputRow amendedSingleThRow
  rw [if_pos he, String.append_empty]

/-- The throughput row of a dual-slot experiment appends the slot-2 columns
directly after the trailing comma of slot 1 and ends in `",Mbps"`. -/
theorem thRow_dual (fmtQ : ℚ → String) (fmtR : ℝ → String)
    (expData : List ExperimentData) (e : ℕ) (he : ¬(e = 0 ∨ e = 2)) :
    throughputRow fmtQ fmtR expData e
      = specDualThRow fmtQ fmtR (e + 1) (expData.getD (e * 2) emptyData)
          (expData.getD (e * 2 + 1) emptyData) := by
  unfold throughputRow specDualThRow amendedSingleThRow
  rw [if_neg he]
  simp only [String.append_assoc]

/-- The flow-completion-time row of a single-slot experiment ends right
after `",sec"`, with no extra comma. -/
theorem afctRow_single (fmtQ : ℚ → String) (fmtR : ℝ → String)
    (expData : List ExperimentData) (e : ℕ) (he : e = 0 ∨ e = 2) :
    afctRow fmtQ fmtR expData e
      = specSingleAfctRow fmtQ fmtR (e + 1) (expData.getD (e * 2) emptyData) := by
  unfold afctRow specSingleAfctRow
  rw [if_pos he, String.append_empty]

/-- The flow-completion-time row of a dual-slot experiment inserts an
explicit comma between `",sec"` and the slot-2 columns. -/
theorem afctRow_dual (fmtQ : ℚ → String) (fmtR : ℝ → String)
    (expData : List ExperimentData) (e : ℕ) (he : ¬(e = 0 ∨ e = 2)) :
    afctRow fmtQ fmtR expData e
      = specDualAfctRow fmtQ fmtR (e + 1) (expData.getD (e * 2) emptyData)
          (expData.getD (e * 2 + 1) emptyData) := by
  unfold afctRow specDualAfctRow specSingleAfctRow
  rw [if_neg he]
  simp only [String.append_assoc]

/-- Counterexample to C1 as stated: on the end-to-end example store of the
spec (three 80 Mb/s samples, mean 80, stddev 0), the single-slot
throughput row is `th_1,80,80,80,80,0,Mbps,` — with a trailing comma
before the line break — and not the claimed `th_1,80,80,80,80,0,Mbps`. -/
theorem singleSlot_row_cex :
    throughputRow fmtQDemo fmtRDemo demoStore 0 = "th_1,80,80,80,80,0,Mbps," ∧
    throughputRow fmtQDemo fmtRDemo demoStore 0 ≠ "th_1,80,80,80,80,0,Mbps" := by
  constructor
  · rfl
  · decide

/-- **C1 (amended).** For a single-slot experiment (0 or 2), the throughput
row consists of the slot-1 columns only — no slot-2 column is emitted —
and it ends with the unit `Mbps` followed by one trailing comma before the
line break. -/
theorem singleSlot_row_amended (fmtQ : ℚ → String) (fmtR : ℝ → String)
    (expData : List ExperimentData) (e : ℕ) (he : e = 0 ∨ e = 2) :
    throughputRow fmtQ fmtR expData e
      = amendedSingleThRow fmtQ fmtR (e + 1) (expData.getD (e * 2) emptyData) ∧
    ∃ s, throughputRow fmtQ fmtR expData e = s ++ ",Mbps," := by
  refine ⟨thRow_single fmtQ fmtR expData e he, ?_⟩
  rw [thRow_single fmtQ fmtR expData e he]
  unfold amendedSingleThRow
  exact ⟨_, rfl⟩

/-- Witness for the amended C1 at experiment 0 of the example store. -/
theorem singleSlot_row_amended_witness :
    throughputRow fmtQDemo fmtRDemo demoStore 0
      = amendedSingleThRow fmtQDemo fmtRDemo 1 (demoStore.getD 0 emptyData) ∧
    ∃ s, throughputRow fmtQDemo fmtRDemo demoStore 0 = s ++ ",Mbps," :=
  singleSlot_row_amended fmtQDemo fmtRDemo demoStore 0 (Or.inl rfl)

/-- **C8.** In table 2, every single-slot row ends right after `sec` with
no extra comma, and every dual-slot row writes an explicit comma between
the slot-1 `sec` and the slot-2 columns (whose samples each carry their
own trailing comma), then mean, stddev and the final `sec`. -/
theorem afct_row_layout (fmtQ : ℚ → String) (fmtR : ℝ → String)
    (expData : List ExperimentData) (e : ℕ) :
    ((e = 0 ∨ e = 2) →
      afctRow fmtQ fmtR expData e
        = specSingleAfctRow fmtQ fmtR (e + 1) (expData.getD (e * 2) emptyData) ∧
      ∃ s, afctRow fmtQ fmtR expData e = s ++ ",sec") ∧
    (¬(e = 0 ∨ e = 2) →
      afctRow fmtQ fmtR expData e
        = specDualAfctRow fmtQ fmtR (e + 1) (expData.getD (e * 2) emptyData)
            (expData.getD (e * 2 + 1) emptyData)) := by
  constructor
  · intro he
    refine ⟨afctRow_single fmtQ fmtR expData e he, ?_⟩
    rw [afctRow_single fmtQ fmtR expData e he]
    unfold specSingleAfctRow
    exact ⟨_, rfl⟩
  · intro he
    exact afctRow_dual fmtQ fmtR expData e he

/-- Witness for C8: experiment 0 of the example store gets a single-slot
row ending in `sec`; experiment 1 gets a dual-slot row with the explicit
comma. -/
theorem afct_row_layout_witness :
    (afctRow fmtQDemo fmtRDemo demoStore 0
        = specSingleAfctRow fmtQDemo fmtRDemo 1 (demoStore.getD 0 emptyData) ∧
      ∃ s, afctRow fmtQDemo fmtRDemo demoStore 0 = s ++ ",sec") ∧
    afctRow fmtQDemo fmtRDemo demoStore 1
      = specDualAfctRow fmtQDemo fmtRDemo 2 (demoStore.getD 2 emptyData)
          (demoStore.getD 3 emptyData) :=
  ⟨(afct_row_layout fmtQDemo fmtRDemo demoStore 0).1 (Or.inl rfl),
   (afct_row_layout fmtQDemo fmtRDemo demoStore 1).2 (by decide)⟩

/-- **C10.** For every store contents, the report is exactly 11 lines: the
header, then the throughput rows labeled `th_1` … `th_5` in order, then
the flow-completion-time rows labeled `afct_1` … `afct_5` in order;
experiments 0 and 2 (1 and 3 in the 1-based labels) always take the
single-slot shape and experiments 1, 3, 4 the dual-slot shape; and each
slot emits exactly the first `min(3, count)` samples of its sequence, one
cell per emitted sample, never padded. -/
theorem report_shape (fmtQ : ℚ → String) (fmtR : ℝ → String)
    (expData : List ExperimentData) :
    (WriteResultsCsvLines fmtQ fmtR expData).length = 11 ∧
    (WriteResultsCsvLines fmtQ fmtR expData).getD 0 "" = csvHeader ∧
    (∀ e, e < 5 →
      (WriteResultsCsvLines fmtQ fmtR expData).getD (1 + e) ""
          = throughputRow fmtQ fmtR expData e ∧
      (WriteResultsCsvLines fmtQ fmtR expData).getD (6 + e) ""
          = afctRow fmtQ fmtR expData e ∧
      (∃ s, throughputRow fmtQ fmtR expData e
          = "th_" ++ toString (e + 1) ++ "," ++ s) ∧
      (∃ s, afctRow fmtQ fmtR expData e
          = "afct_" ++ toString (e + 1) ++ "," ++ s)) ∧
    (∀ e, (e = 0 ∨ e = 2) →
      throughputRow fmtQ fmtR expData e
        = amendedSingleThRow fmtQ fmtR (e + 1) (expData.getD (e * 2) emptyData) ∧
      afctRow fmtQ fmtR expData e
        = specSingleAfctRow fmtQ fmtR (e + 1) (expData.getD (e * 2) emptyData)) ∧
    (∀ e, ¬(e = 0 ∨ e = 2) →
      throughputRow fmtQ fmtR expData e
        = specDualThRow fmtQ fmtR (e + 1) (expData.getD (e * 2) emptyData)
            (expData.getD (e * 2 + 1) emptyData) ∧
      afctRow fmtQ fmtR expData e
        = specDualAfctRow fmtQ fmtR (e + 1) (expData.getD (e * 2) emptyData)
            (expData.getD (e * 2 + 1) emptyData)) ∧
    (∀ samples, (sampleCellsList fmtQ samples).length = min 3 samples.length) ∧
    (∀ samples i, i < min 3 samples.length →
      (sampleCellsList fmtQ samples).getD i "" = fmtQ (samples.getD i 0) ++ ",") := by
  refine ⟨rfl, rfl, ?_, ?_, ?_, ?_, ?_⟩
  · intro e he
    interval_cases e <;>
      exact ⟨rfl, rfl, throughputRow_label _ _ _ _, afctRow_label _ _ _ _⟩
  · intro e he
    exact ⟨thRow_single fmtQ fmtR expData e he, afctRow_single fmtQ fmtR expData e he⟩
  · intro e he
    exact ⟨thRow_dual fmtQ fmtR expData e he, afctRow_dual fmtQ fmtR expData e he⟩
  · intro samples
    simp [sampleCellsList, List.length_take]
  · intro samples i hi
    have hilen : i < samples.length := lt_of_lt_of_le hi (min_le_right _ _)
    have hlen : i < (sampleCellsList fmtQ samples).length := by
      simp only [sampleCellsList, List.length_map, List.length_take]
      omega
    rw [List.getD_eq_getElem _ _ hlen, List.getD_eq_getElem _ _ hilen]
    simp [sampleCellsList, List.getElem_take]

/-- Witness for C10 at the example store: line 1 is the `th_1` row, line 6
the `afct_1` row, both labeled, and a 4-sample slot emits exactly 3 cells. -/
theorem report_shape_witness :
    ((WriteResultsCsvLines fmtQDemo fmtRDemo demoStore).getD 1 ""
        = throughputRow fmtQDemo fmtRDemo demoStore 0 ∧
      (WriteResultsCsvLines fmtQDemo fmtRDemo demoStore).getD 6 ""
        = afctRow fmtQDemo fmtRDemo demoStore 0 ∧
      (∃ s, throughputRow fmtQDemo fmtRDemo demoStore 0
          = "th_" ++ toString 1 ++ "," ++ s) ∧
      (∃ s, afctRow fmtQDemo fmtRDemo demoStore 0
          = "afct_" ++ toString 1 ++ "," ++ s)) ∧
    (sampleCellsList fmtQDemo [80, 80, 80, 80]).length = min 3 4 :=
  ⟨(report_shape fmtQDemo fmtRDemo demoStore).2.2.1 0 (by norm_num),
   (report_shape fmtQDemo fmtRDemo demoStore).2.2.2.2.2.1 [80, 80, 80, 80]⟩

end Dumbbell
